import Mathlib

/-!
Verification development for the `@plasius/voice` speech-session engine.

The definitions below are shallow embeddings of the TypeScript sources:
  * `createGlobalVoiceStore` (global store reducer),
  * the engine-local store reducer of `useWebSpeechEngine.ts`,
  * `extractTexts`, `onSRResult`, `onSRError`, `startWithRecovery`,
    `onWantListeningChange` and the config/mute/device subscriptions of
    `useWebSpeechEngine.ts`,
  * `stopAndWaitGeneric` of `voiceAdapter.ts` (generation-token teardown).

Machine numbers are modelled as `Nat`/`Rat`; JavaScript strings as `String`;
absent/`undefined`/`null` values as `Option`.
-/

namespace Voice

/-- Permission states of the global voice store. -/
inductive Permission where
  | granted
  | denied
  | prompt
  | unsupported
deriving DecidableEq, Repr

/-- Source of a push-to-talk interaction. -/
inductive PttSource where
  | keyboard
  | mouse
  | touch
deriving DecidableEq, Repr

/-- Shallow embedding of `GlobalVoiceState` (global.store).  The source field
`partial` is called `partialText` here because `partial` is reserved in Lean;
`MediaDeviceInfo` entries are abstracted to their device-id strings. -/
structure GlobalVoiceState where
  wantListening : Bool
  listening : Bool
  lang : String
  interim : Bool
  continuous : Bool
  partialText : String
  transcript : String
  muted : Bool
  deviceId : Option String
  deviceList : List String
  permission : Permission
  volume : Rat
  pttEnabled : Bool
  pttHold : Bool
  pttPressed : Bool
  pttActive : Bool
  pttSource : Option PttSource
  lastError : Option String
deriving DecidableEq, Repr

/-- Shallow embedding of `GlobalVoiceAction`.  Optional payload members are
`Option`s; the `REQ/START` payload is the partial config record. -/
inductive GlobalVoiceAction where
  | reqStart (lang : Option String) (interim : Option Bool) (continuous : Option Bool)
  | reqStop
  | intSetConfig (lang : String) (interim : Bool) (continuous : Bool)
  | intSetPermissions (permission : Permission)
  | intSetVolume (volume : Rat)
  | intSetPttConfig (pttEnabled : Option Bool) (pttHold : Option Bool)
  | evtStart
  | evtPartial (text : String)
  | evtFinal (text : String)
  | evtError (error : String)
  | evtEnd
  | evtDeviceChanged (deviceId : Option String)
  | evtMuteChanged (muted : Bool)
  | evtDeviceListChanged (deviceList : List String)
  | evtPttPressed (source : PttSource)
  | evtPttReleased (source : PttSource)
  | evtPttToggle (source : PttSource)
deriving DecidableEq, Repr

/-- Embedding of `clamp01` (global.store).  `Rat` values are always finite, so
the `isFinite` test of the source is vacuous here. -/
def clamp01 (n : Rat) : Rat := min 1 (max 0 n)

/-- Helper for `.replace(/\s+/g, " ").trim()`: collapse every run of
whitespace to a single space and drop leading/trailing whitespace.
`pending` records that whitespace was seen since the last emitted character,
`emitted` whether any character has been emitted yet. -/
def collapseWSAux : List Char → Bool → Bool → List Char
  | [], _, _ => []
  | c :: cs, pending, emitted =>
    if c.isWhitespace then
      collapseWSAux cs true emitted
    else
      let rest := collapseWSAux cs false true
      if pending && emitted then ' ' :: c :: rest else c :: rest

/-- Embedding of the JavaScript idiom `s.replace(/\s+/g, " ").trim()`. -/
def collapseWS (s : String) : String := ⟨collapseWSAux s.data false false⟩

/-- Embedding of JavaScript `String.prototype.trim` (kernel-reducible,
unlike `String.trim`). -/
def jsTrim (s : String) : String :=
  ⟨((s.data.dropWhile Char.isWhitespace).reverse.dropWhile Char.isWhitespace).reverse⟩

/-- Embedding of the reducer inside `createGlobalVoiceStore` (global.store). -/
def globalReduce (s : GlobalVoiceState) (a : GlobalVoiceAction) : GlobalVoiceState :=
  match a with
  | .intSetConfig lang interim continuous =>
    { s with lang := lang, interim := interim, continuous := continuous }
  | .intSetPermissions p => { s with permission := p }
  | .intSetVolume v => { s with volume := clamp01 v }
  | .intSetPttConfig en hold =>
    let s1 := match en with
      | some b => { s with pttEnabled := b }
      | none => s
    match hold with
      | some b => { s1 with pttHold := b }
      | none => s1
  | .reqStart lang interim continuous =>
    let s1 := { s with wantListening := true, lastError := none }
    let s2 := match lang with
      | some l => if l == "" then s1 else { s1 with lang := l }
      | none => s1
    let s3 := match interim with
      | some b => { s2 with interim := b }
      | none => s2
    match continuous with
      | some b => { s3 with continuous := b }
      | none => s3
  | .reqStop => { s with wantListening := false }
  | .evtStart => { s with listening := true, partialText := "" }
  | .evtPartial text => { s with partialText := text }
  | .evtFinal text =>
    let t := jsTrim text
    let base := if s.transcript == "" then "" else s.transcript ++ " "
    { s with transcript := collapseWS (base ++ t), partialText := "" }
  | .evtError e => { s with lastError := some e, listening := false }
  | .evtEnd => { s with listening := false }
  | .evtDeviceChanged d => { s with deviceId := d }
  | .evtMuteChanged m => { s with muted := m }
  | .evtDeviceListChanged l => { s with deviceList := l }
  | .evtPttPressed src =>
    { s with pttPressed := true, pttSource := some src
           , pttActive := if s.pttHold then true else s.pttActive }
  | .evtPttReleased src =>
    { s with pttPressed := false, pttSource := some src
           , pttActive := if s.pttHold then false else s.pttActive }
  | .evtPttToggle src =>
    { s with pttActive := !s.pttActive, pttSource := some src }

/-- Default state of the global store (SR available, `navigator.language`
abstracted to the fallback "en-GB"). -/
def globalDefaults : GlobalVoiceState :=
  { wantListening := false
  , listening := false
  , lang := "en-GB"
  , interim := false
  , continuous := false
  , partialText := ""
  , transcript := ""
  , muted := false
  , deviceId := none
  , deviceList := []
  , permission := .prompt
  , volume := 1
  , pttEnabled := false
  , pttHold := true
  , pttPressed := false
  , pttActive := false
  , pttSource := none
  , lastError := none }

/-- Shallow embedding of the engine-local `EngineState`
(useWebSpeechEngine.ts); timestamps are modelled as `Nat`. -/
structure EngineState where
  sessionId : Option String
  startedAt : Option Nat
  endedAt : Option Nat
  lastError : Option String
deriving DecidableEq, Repr

/-- Embedding of the engine-local `EngineAction`. -/
inductive EngineAction where
  | evtStart (sessionId : String) (startedAt : Nat)
  | evtEnd (endedAt : Nat)
  | evtError (error : String)
  | intReset
deriving DecidableEq, Repr

/-- Embedding of the engine-local `reducer` (useWebSpeechEngine.ts). -/
def engineReduce (s : EngineState) (a : EngineAction) : EngineState :=
  match a with
  | .evtStart sessionId startedAt =>
    { s with sessionId := some sessionId, startedAt := some startedAt, lastError := none }
  | .evtEnd endedAt => { s with endedAt := some endedAt }
  | .evtError e => { s with lastError := some e }
  | .intReset =>
    { sessionId := none, startedAt := none, endedAt := none, lastError := none }

/-- One entry of a speech-recognition result batch: `isFinal` plus the list of
alternatives, abstracted to their transcript strings (`res[0]?.transcript`
is `alts.headD ""`; `res.length === 0` is `alts = []`). -/
structure SRResultEntry where
  isFinal : Bool
  alts : List String
deriving DecidableEq, Repr

/-- Return value of `extractTexts` together with the updated cursor that the
source writes back to `rec.__cursor`. -/
structure ExtractedTexts where
  interim : String
  final : String
  cursor : Nat
deriving DecidableEq, Repr

/-- The accumulation loop of `extractTexts`: walk the entries from the start
index, skip empty entries, and concatenate final/interim chunks. -/
def extractLoop : List SRResultEntry → String → String → String × String
  | [], finalAcc, interimAcc => (finalAcc, interimAcc)
  | r :: rs, finalAcc, interimAcc =>
    if r.alts.length == 0 then extractLoop rs finalAcc interimAcc
    else
      let chunk := r.alts.headD ""
      if r.isFinal then extractLoop rs (finalAcc ++ chunk) interimAcc
      else extractLoop rs finalAcc (interimAcc ++ chunk)

/-- Embedding of `extractTexts` (useWebSpeechEngine.ts).  `resultIndex` is the
event's optional `resultIndex` (absent when not a number); `cursor` is the
recogniser's `__cursor` field on entry. -/
def extractTexts (results : List SRResultEntry) (resultIndex : Option Nat)
    (cursor : Nat) : ExtractedTexts :=
  let len := results.length
  let cur := if len < cursor then 0 else cursor
  let start := resultIndex.getD cur
  let p := extractLoop (results.drop start) "" ""
  { interim := collapseWS p.2, final := collapseWS p.1, cursor := len }

/-- The per-recogniser bookkeeping fields `__cursor`, `__lastInterim`,
`__lastFinal` that `attachHandlers` initialises. -/
structure RecLocal where
  cursor : Nat
  lastInterim : String
  lastFinal : String
deriving DecidableEq, Repr

/-- What one `onresult` delivery produced: the updated recogniser-local
fields, the dispatches sent to the global store, and the telemetry event
names emitted. -/
structure ResultReaction where
  recLocal : RecLocal
  actions : List GlobalVoiceAction
  emits : List String
deriving DecidableEq, Repr

/-- Embedding of `onSRResult` (useWebSpeechEngine.ts). -/
def onSRResult (r : RecLocal) (results : List SRResultEntry)
    (resultIndex : Option Nat) : ResultReaction :=
  let e := extractTexts results resultIndex r.cursor
  let r0 : RecLocal := { r with cursor := e.cursor }
  let step1 : RecLocal × List GlobalVoiceAction × List String :=
    if e.interim != "" && e.interim != r.lastInterim then
      ({ r0 with lastInterim := e.interim }
      , [GlobalVoiceAction.evtPartial e.interim]
      , ["webspeech:session-partial"])
    else (r0, [], [])
  let r1 := step1.1
  let step2 : RecLocal × List GlobalVoiceAction × List String :=
    if e.final != "" && e.final != r.lastFinal then
      ({ r1 with lastFinal := e.final }
      , [GlobalVoiceAction.evtFinal e.final]
      , ["webspeech:session-final"])
    else (r1, [], [])
  { recLocal := step2.1
  , actions := step1.2.1 ++ step2.2.1
  , emits := step1.2.2 ++ step2.2.2 }

/-- Embedding of the fatality test in `onSRError` (useWebSpeechEngine.ts):
permission-related error codes. -/
def isFatalSRError (e : String) : Bool :=
  e == "not-allowed" || e == "service-not-allowed" || e == "NotAllowedError"

/-- What one `onerror` delivery produced. -/
structure ErrorReaction where
  global : GlobalVoiceState
  engine : EngineState
  fatal : Bool
  emits : List String
deriving DecidableEq, Repr

/-- Embedding of `onSRError` (useWebSpeechEngine.ts): dispatch `EVT/ERROR` to
the engine-local and global stores, then `INT/SET_PERMISSIONS denied` when the
code is permission-related; finally emit the telemetry event. -/
def onSRError (g : GlobalVoiceState) (eng : EngineState) (e : String) : ErrorReaction :=
  let fatal := isFatalSRError e
  let eng1 := engineReduce eng (.evtError e)
  let g1 := globalReduce g (.evtError e)
  let g2 := if fatal then globalReduce g1 (.intSetPermissions .denied) else g1
  { global := g2, engine := eng1, fatal := fatal, emits := ["webspeech:session-error"] }

/-- Recogniser-facing side effects of the reconciliation path. -/
inductive EngineEffect where
  | construct (id : Nat)
  | startCall (id : Nat)
  | stopWait (id : Nat)
deriving DecidableEq, Repr

/-- The engine's held recogniser reference (`recRef`), with a counter used to
name freshly constructed instances. -/
structure RecRefState where
  recRef : Option Nat
  nextId : Nat
deriving DecidableEq, Repr

/-- Embedding of `onWantListeningChange` (useWebSpeechEngine.ts): the guard
returns immediately when disposed, the SR constructor is unavailable, muted,
or permission is denied; otherwise a start constructs exactly when `recRef`
is empty, and a stop nulls the reference before initiating `stopAndWait`. -/
def onWantListeningChange (g : GlobalVoiceState) (srAvailable disposed : Bool)
    (w : RecRefState) : RecRefState × List EngineEffect :=
  if disposed || !srAvailable || g.muted || g.permission == .denied then (w, [])
  else if g.wantListening then
    match w.recRef with
    | some _ => (w, [])
    | none =>
      let id := w.nextId
      ({ recRef := some id, nextId := id + 1 }, [.construct id, .startCall id])
  else
    match w.recRef with
    | some id => ({ w with recRef := none }, [.stopWait id])
    | none => (w, [])

/-- Outcome of one `startWithRecovery` pass (useWebSpeechEngine.ts), counting
the recogniser-facing effects and store dispatches it performs.  `e1` is the
stringified first synchronous `start()` exception, `e2` the second one;
construction of the fresh instance is assumed not to throw. -/
structure RecoveryOutcome where
  errorsDispatched : List String
  permissionDenied : Bool
  freshConstructions : Nat
  startCalls : Nat
  stopWaits : Nat
  recRef : Option Nat
deriving DecidableEq, Repr

/-- Embedding of `startWithRecovery` (useWebSpeechEngine.ts).  The initial
instance `initialId` is already held in `recRef` when the pass begins. -/
def startWithRecovery (initialId : Nat) (firstStartThrows : Bool) (e1 : String)
    (freshStartThrows : Bool) (e2 : String) (disposed srAvailable : Bool) :
    RecoveryOutcome :=
  if !firstStartThrows then
    { errorsDispatched := [], permissionDenied := false, freshConstructions := 0
    , startCalls := 1, stopWaits := 0, recRef := some initialId }
  else
    let permDenied := isFatalSRError e1
    if disposed || !srAvailable then
      { errorsDispatched := [e1], permissionDenied := permDenied
      , freshConstructions := 0, startCalls := 1, stopWaits := 1, recRef := none }
    else if freshStartThrows then
      { errorsDispatched := [e1, e2], permissionDenied := permDenied
      , freshConstructions := 1, startCalls := 2, stopWaits := 1
      , recRef := some (initialId + 1) }
    else
      { errorsDispatched := [e1], permissionDenied := permDenied
      , freshConstructions := 1, startCalls := 2, stopWaits := 1
      , recRef := some (initialId + 1) }

/-- Embedding of the reconciliation pass triggered by a mute transition: the
`EVT/MUTE_CHANGED true` dispatch, the `uMuted` subscription's `REQ/STOP`, and
the resulting `wantListening` subscription firing (which early-returns while
muted). -/
def mutedTruePass (g : GlobalVoiceState) (srAvailable disposed : Bool)
    (w : RecRefState) : GlobalVoiceState × RecRefState × List EngineEffect :=
  let g1 := globalReduce g (.evtMuteChanged true)
  if g.muted == g1.muted then (g1, w, [])
  else
    let g2 := globalReduce g1 .reqStop
    if g.wantListening == g2.wantListening then (g2, w, [])
    else
      let p := onWantListeningChange g2 srAvailable disposed w
      (g2, p.1, p.2)

/-- Embedding of the reconciliation pass triggered by the device id clearing
to `null`: the `EVT/DEVICE_CHANGED null` dispatch, the `uDevice`
subscription's `REQ/STOP`, and the resulting `wantListening` subscription
firing. -/
def deviceNullPass (g : GlobalVoiceState) (srAvailable disposed : Bool)
    (w : RecRefState) : GlobalVoiceState × RecRefState × List EngineEffect :=
  let g1 := globalReduce g (.evtDeviceChanged none)
  if g.deviceId == g1.deviceId then (g1, w, [])
  else
    let g2 := globalReduce g1 .reqStop
    if g.wantListening == g2.wantListening then (g2, w, [])
    else
      let p := onWantListeningChange g2 srAvailable disposed w
      (g2, p.1, p.2)

/-- Declarative description of the final-classified text a result-batch
suffix contributes: the concatenation, in order, of the first-alternative
transcripts of the non-empty final entries. -/
def finalChunks : List SRResultEntry → String
  | [] => ""
  | r :: rs =>
    (if r.alts.length != 0 && r.isFinal then r.alts.headD "" else "") ++ finalChunks rs

/-- Declarative description of the interim-classified text a result-batch
suffix contributes. -/
def interimChunks : List SRResultEntry → String
  | [] => ""
  | r :: rs =>
    (if r.alts.length != 0 && !r.isFinal then r.alts.headD "" else "") ++ interimChunks rs

/-- Follows the claim's words, not the source: process entries from
`max(session cursor, reported start index)` onward.  Used only to compare
with `extractTexts`. -/
def extractTextsClaimed (results : List SRResultEntry) (resultIndex : Option Nat)
    (cursor : Nat) : ExtractedTexts :=
  let len := results.length
  let cur := if len < cursor then 0 else cursor
  let start := match resultIndex with
    | some n => max cur n
    | none => cur
  let p := extractLoop (results.drop start) "" ""
  { interim := collapseWS p.2, final := collapseWS p.1, cursor := len }

/-- A configuration-key change observed by one of the `uLang` / `uInterim` /
`uCont` subscriptions within a single tick. -/
inductive CfgChange where
  | setLang (l : String)
  | setInterim (b : Bool)
  | setContinuous (b : Bool)
deriving DecidableEq, Repr

/-- Store effect of one configuration-key change. -/
def applyCfgChange (g : GlobalVoiceState) : CfgChange → GlobalVoiceState
  | .setLang l => { g with lang := l }
  | .setInterim b => { g with interim := b }
  | .setContinuous b => { g with continuous := b }

/-- The engine's config-change bookkeeping within one tick: the store state,
the `cfgScheduled` flag, and how many reconciliation microtasks have been
queued. -/
structure CfgTickState where
  g : GlobalVoiceState
  cfgScheduled : Bool
  flushes : Nat
deriving DecidableEq, Repr

/-- Embedding of `onCfgChange` (useWebSpeechEngine.ts): schedule the
coalesced reconciliation at most once per tick. -/
def onCfgChange (disposed : Bool) (t : CfgTickState) : CfgTickState :=
  if disposed || t.cfgScheduled then t
  else { t with cfgScheduled := true, flushes := t.flushes + 1 }

/-- A whole tick of configuration changes followed by the microtask flush:
each key change first updates the store, then invokes `onCfgChange`; at the
end of the tick the scheduled microtask body runs once, reading the store's
state at execution time and dispatching the stop/start requests. -/
def runCfgTick (g0 : GlobalVoiceState) (changes : List CfgChange)
    (disposed : Bool) : CfgTickState × List GlobalVoiceAction :=
  let t := changes.foldl
    (fun t c => onCfgChange disposed { t with g := applyCfgChange t.g c })
    ⟨g0, false, 0⟩
  if t.cfgScheduled && !disposed then
    let s := t.g
    let cfgStart := GlobalVoiceAction.reqStart (some s.lang) (some s.interim) (some s.continuous)
    let acts := if s.listening then [GlobalVoiceAction.reqStop, cfgStart]
      else if s.wantListening then [cfgStart]
      else []
    (t, acts)
  else (t, [])

/-- Interleaving events for the start-failure recovery race: `wantListening`
toggles (with the reconciliation guard open: SR available, not muted, not
denied, not disposed) and the resumption of a parked recovery continuation
after its `await stopAndWait(stuck)` completes. -/
inductive RaceOp where
  | toggleOn
  | toggleOff
  | resumeRecovery
deriving DecidableEq, Repr

/-- Engine-side resource state for the recovery race: the held reference, a
fresh-name counter, the set of instances on which `start()` succeeded and no
stop has been initiated, and the number of recovery continuations parked at
their teardown await. -/
structure RaceState where
  recRef : Option Nat
  nextId : Nat
  running : List Nat
  pendingRecoveries : Nat
deriving DecidableEq, Repr

/-- One interleaved step of `onWantListeningChange` / `startWithRecovery`
(useWebSpeechEngine.ts).  `throws` tells which instances fail their
synchronous `start()`.  A failing start nulls `recRef` and parks the recovery
continuation; resuming that continuation constructs a fresh instance and
assigns it to `recRef` without re-checking the reference, exactly as the
source does after `await stopAndWait(stuck)`. -/
def raceStep (throws : Nat → Bool) (s : RaceState) : RaceOp → RaceState
  | .toggleOn =>
    match s.recRef with
    | some _ => s
    | none =>
      let id := s.nextId
      if throws id then
        { s with recRef := none, nextId := id + 1
               , pendingRecoveries := s.pendingRecoveries + 1 }
      else
        { s with recRef := some id, nextId := id + 1, running := s.running ++ [id] }
  | .toggleOff =>
    match s.recRef with
    | some id => { s with recRef := none, running := s.running.erase id }
    | none => s
  | .resumeRecovery =>
    if s.pendingRecoveries == 0 then s
    else
      let id := s.nextId
      if throws id then
        { s with recRef := some id, nextId := id + 1
               , pendingRecoveries := s.pendingRecoveries - 1 }
      else
        { s with recRef := some id, nextId := id + 1, running := s.running ++ [id]
               , pendingRecoveries := s.pendingRecoveries - 1 }

/-- Run the recovery-race machine from the engine's initial state. -/
def raceRun (throws : Nat → Bool) (ops : List RaceOp) : RaceState :=
  ops.foldl (raceStep throws) ⟨none, 0, [], 0⟩

/-- Resolution reasons of `stopAndWaitGeneric` (voiceAdapter.ts). -/
inductive StopReason where
  | ended
  | errored
  | timedOut
deriving DecidableEq, Repr

/-- One in-flight `stopAndWaitGeneric` call: its target handle, the captured
generation token, which of its one-shot event sources (end listener, error
listener, timer) are still attached, the `settled` flag, and every `resolve`
invocation made for it (in order). -/
structure WaitCall where
  target : Nat
  token : Nat
  endAttached : Bool
  errAttached : Bool
  timerActive : Bool
  settled : Bool
  resolved : List StopReason
deriving DecidableEq, Repr

/-- Lookup in the `stopTokens` map (absent target means 0, as in
`stopTokens.get(target) ?? 0`). -/
def getTok (m : List (Nat × Nat)) (t : Nat) : Nat :=
  match m with
  | [] => 0
  | p :: ps => if p.1 == t then p.2 else getTok ps t

/-- Update of the `stopTokens` map. -/
def setTok (m : List (Nat × Nat)) (t v : Nat) : List (Nat × Nat) :=
  match m with
  | [] => [(t, v)]
  | p :: ps => if p.1 == t then (t, v) :: ps else p :: setTok ps t v

/-- Global state of the teardown coordinator: the per-target generation map
plus every call ever made, in creation order. -/
structure WaitState where
  stopTokens : List (Nat × Nat)
  calls : List WaitCall
deriving DecidableEq, Repr

/-- Embedding of `finish` (voiceAdapter.ts): a resolution attempt is honored
only when the captured token still equals the latest token recorded for the
target; an honored attempt runs `cleanup` (idempotent via `settled`,
detaching listeners and clearing the timer) and then invokes `resolve`. -/
def finishCall (latestTok : Nat) (c : WaitCall) (reason : StopReason) : WaitCall :=
  if latestTok != c.token then c
  else
    let c1 := if c.settled then c
      else { c with settled := true, endAttached := false, errAttached := false
                  , timerActive := false }
    { c1 with resolved := c1.resolved ++ [reason] }

/-- Operations on the teardown coordinator: a new `stopAndWaitGeneric` call
for a target, the target's terminal `end` event, its `error` event, and the
`i`-th call's own timeout firing. -/
inductive WaitOp where
  | newCall (t : Nat)
  | fireEnd (t : Nat)
  | fireError (t : Nat)
  | fireTimeout (i : Nat)
deriving DecidableEq, Repr

/-- Step of the teardown coordinator.  A `newCall` increments the target's
generation and attaches fresh one-shot sources.  A DOM event on a target
invokes every still-attached listener for it (each `once: true`, detaching
itself before its `finish` runs); a timeout invokes the owning call's
`finish` after deactivating the timer. -/
def waitStep (s : WaitState) : WaitOp → WaitState
  | .newCall t =>
    let tok := getTok s.stopTokens t + 1
    { stopTokens := setTok s.stopTokens t tok
    , calls := s.calls ++
        [{ target := t, token := tok, endAttached := true, errAttached := true
         , timerActive := true, settled := false, resolved := [] }] }
  | .fireEnd t =>
    { s with calls := s.calls.map (fun c =>
        if c.target == t && c.endAttached then
          finishCall (getTok s.stopTokens c.target) { c with endAttached := false } .ended
        else c) }
  | .fireError t =>
    { s with calls := s.calls.map (fun c =>
        if c.target == t && c.errAttached then
          finishCall (getTok s.stopTokens c.target) { c with errAttached := false } .errored
        else c) }
  | .fireTimeout i =>
    match s.calls[i]? with
    | none => s
    | some c =>
      if c.timerActive then
        let c1 := finishCall (getTok s.stopTokens c.target)
          { c with timerActive := false } .timedOut
        { s with calls := s.calls.set i c1 }
      else s

/-- Run the teardown coordinator from the empty state. -/
def waitRun (ops : List WaitOp) : WaitState := ops.foldl waitStep ⟨[], []⟩

/-- Per-call well-formedness: the captured token never exceeds the latest one
for its target, `resolve` ran at most once, `settled` records exactly whether
a resolution happened, and a settled call has every source detached. -/
def callOK (latestTok : Nat) (c : WaitCall) : Bool :=
  decide (c.token ≤ latestTok ∧ c.resolved.length ≤ 1 ∧
    c.settled = !c.resolved.isEmpty ∧
    (c.settled = true →
      c.endAttached = false ∧ c.errAttached = false ∧ c.timerActive = false))

/-- Well-formedness of the whole coordinator state. -/
def wfWait (s : WaitState) : Bool :=
  s.calls.all (fun c => callOK (getTok s.stopTokens c.target) c)

/-- A concrete listening state (used by witnesses). -/
def gListening : GlobalVoiceState :=
  { globalDefaults with wantListening := true, listening := true }

/-- A concrete listening state with a selected device (used by witnesses). -/
def gListeningMic : GlobalVoiceState :=
  { gListening with deviceId := some "mic" }

theorem string_empty_append (s : String) : "" ++ s = s := by
  cases s
  rfl

theorem string_append_empty (s : String) : s ++ "" = s := by
  cases s with
  | mk data => show String.mk (data ++ []) = String.mk data
               rw [List.append_nil]

theorem string_append_assoc (a b c : String) : a ++ b ++ c = a ++ (b ++ c) := by
  cases a; cases b; cases c
  show String.mk (_ ++ _ ++ _) = String.mk (_ ++ (_ ++ _))
  rw [List.append_assoc]

theorem extractLoop_eq (rs : List SRResultEntry) (f i : String) :
    extractLoop rs f i = (f ++ finalChunks rs, i ++ interimChunks rs) := by
  induction rs generalizing f i with
  | nil => simp [extractLoop, finalChunks, interimChunks, string_append_empty]
  | cons r rs ih =>
    simp only [extractLoop, finalChunks, interimChunks]
    by_cases hl : r.alts = []
    · simp [hl, ih, string_empty_append]
    · by_cases hf : r.isFinal
      · simp [List.length_eq_zero, hl, hf, ih, string_append_assoc, string_empty_append]
      · simp [List.length_eq_zero, hl, hf, ih, string_append_assoc, string_empty_append]

/-- C10: for every store state `s` and error string `e`, dispatching
`EVT/ERROR e` yields the state with `lastError = e` and `listening = false`,
all other fields (including `wantListening` and `permission`) unchanged. -/
theorem evtError_updates_only_lastError_and_listening
    (s : GlobalVoiceState) (e : String) :
    (globalReduce s (.evtError e)).lastError = some e ∧
    (globalReduce s (.evtError e)).listening = false ∧
    (globalReduce s (.evtError e)).wantListening = s.wantListening ∧
    (globalReduce s (.evtError e)).permission = s.permission ∧
    (globalReduce s (.evtError e)).lang = s.lang ∧
    (globalReduce s (.evtError e)).interim = s.interim ∧
    (globalReduce s (.evtError e)).continuous = s.continuous ∧
    (globalReduce s (.evtError e)).partialText = s.partialText ∧
    (globalReduce s (.evtError e)).transcript = s.transcript ∧
    (globalReduce s (.evtError e)).muted = s.muted ∧
    (globalReduce s (.evtError e)).deviceId = s.deviceId ∧
    (globalReduce s (.evtError e)).deviceList = s.deviceList ∧
    (globalReduce s (.evtError e)).volume = s.volume ∧
    (globalReduce s (.evtError e)).pttEnabled = s.pttEnabled ∧
    (globalReduce s (.evtError e)).pttHold = s.pttHold ∧
    (globalReduce s (.evtError e)).pttPressed = s.pttPressed ∧
    (globalReduce s (.evtError e)).pttActive = s.pttActive ∧
    (globalReduce s (.evtError e)).pttSource = s.pttSource := by
  simp [globalReduce]

/-- C6: `onSRError` classifies an error as fatal exactly when its code is one
of the permission-related codes; a fatal error forces `permission = denied`,
a transient one leaves `permission` unchanged, and either way the error is
recorded as `lastError` in both stores. -/
theorem onSRError_fatal_classification
    (g : GlobalVoiceState) (eng : EngineState) (e : String) :
    (onSRError g eng e).fatal
        = (e == "not-allowed" || e == "service-not-allowed" || e == "NotAllowedError") ∧
    (onSRError g eng e).global.permission
        = (if isFatalSRError e then Permission.denied else g.permission) ∧
    (onSRError g eng e).global.lastError = some e ∧
    (onSRError g eng e).engine.lastError = some e := by
  refine ⟨rfl, ?_, ?_, rfl⟩ <;>
    cases h : isFatalSRError e <;> simp [onSRError, globalReduce, engineReduce, h]

/-- C5: in a reconciliation pass whose initial `start()` throws synchronously
(engine not disposed, SR available), the engine dispatches the error, tears
the failed instance down through `stopAndWait`, constructs exactly one fresh
instance and calls `start()` exactly once more (two calls in total); a second
throw dispatches its error too and causes no third construction or start; a
permission-coded first failure sets permission to denied. -/
theorem startWithRecovery_exactly_one_retry
    (initialId : Nat) (e1 e2 : String) (freshStartThrows : Bool) :
    (startWithRecovery initialId true e1 freshStartThrows e2 false true).errorsDispatched
        = (if freshStartThrows then [e1, e2] else [e1]) ∧
    (startWithRecovery initialId true e1 freshStartThrows e2 false true).stopWaits = 1 ∧
    (startWithRecovery initialId true e1 freshStartThrows e2 false true).freshConstructions = 1 ∧
    (startWithRecovery initialId true e1 freshStartThrows e2 false true).startCalls = 2 ∧
    (startWithRecovery initialId true e1 freshStartThrows e2 false true).permissionDenied
        = isFatalSRError e1 := by
  cases freshStartThrows <;> simp [startWithRecovery]

/-- C4 counterexample: with `deviceId = null` (the store default), a caller's
start request makes the reconciliation handler construct and start a
recognizer — `deviceId = null` does not inhibit starting, contrary to the
claim. -/
theorem deviceId_null_does_not_block_start :
    ({ globalDefaults with wantListening := true, permission := .granted }
        : GlobalVoiceState).deviceId = none ∧
    (onWantListeningChange
        { globalDefaults with wantListening := true, permission := .granted }
        true false ⟨none, 0⟩).2
      = [.construct 0, .startCall 0] := ⟨rfl, rfl⟩

/-- C4 amended: when the resource is unavailable, permission is denied, muted
is set, or the engine is disposed, the reconciliation handler performs no
effect at all — it neither constructs nor starts, and it also initiates no
teardown of a held instance; outside those states, `deviceId` plays no role:
with `wantListening` and no held instance the handler constructs and starts
regardless of `deviceId`. -/
theorem blocked_states_never_start_never_stop
    (g : GlobalVoiceState) (w : RecRefState) (srAvailable disposed : Bool) :
    ((disposed || !srAvailable || g.muted || g.permission == .denied) = true →
      onWantListeningChange g srAvailable disposed w = (w, [])) ∧
    ((disposed || !srAvailable || g.muted || g.permission == .denied) = false →
      g.wantListening = true → w.recRef = none →
      (onWantListeningChange g srAvailable disposed w).2
        = [.construct w.nextId, .startCall w.nextId]) := by
  constructor
  · intro h
    simp [onWantListeningChange, h]
  · intro h hw hr
    simp [onWantListeningChange, h, hw, hr]

/-- Witness for the amended C4 theorem at concrete inputs: a muted state with
a held recognizer is left untouched, and a default (device-less) state with a
start request constructs and starts. -/
theorem blocked_states_never_start_never_stop_witness :
    onWantListeningChange { globalDefaults with muted := true, wantListening := true }
        true false ⟨some 5, 6⟩ = (⟨some 5, 6⟩, []) ∧
    (onWantListeningChange { globalDefaults with wantListening := true }
        true false ⟨none, 0⟩).2 = [.construct 0, .startCall 0] :=
  ⟨(blocked_states_never_start_never_stop
      { globalDefaults with muted := true, wantListening := true } ⟨some 5, 6⟩ true false).1
      (by decide),
   (blocked_states_never_start_never_stop
      { globalDefaults with wantListening := true } ⟨none, 0⟩ true false).2
      (by decide) rfl rfl⟩

/-- C3 counterexample: muting while listening (with a held recognizer) clears
`wantListening` (the claim says it is left unchanged) and leaves the
recognizer held and `listening` true for the whole pass (the claim says
listening becomes false within one pass). -/
theorem muted_transition_keeps_listening_and_clears_want :
    (mutedTruePass { globalDefaults with wantListening := true, listening := true }
        true false ⟨some 0, 1⟩).1.wantListening = false ∧
    (mutedTruePass { globalDefaults with wantListening := true, listening := true }
        true false ⟨some 0, 1⟩).1.listening = true ∧
    (mutedTruePass { globalDefaults with wantListening := true, listening := true }
        true false ⟨some 0, 1⟩).2.1.recRef = some 0 ∧
    (mutedTruePass { globalDefaults with wantListening := true, listening := true }
        true false ⟨some 0, 1⟩).2.2 = [] := by decide

/-- C3 amended: a `muted := true` transition dispatches `REQ/STOP`, clearing
`wantListening`, but the reconciliation pass returns early while muted, so
the held recognizer is untouched and `listening` keeps its value for the
pass; a `deviceId := null` transition likewise clears `wantListening` and
does begin teardown of the held recognizer (its `listening` flag also only
drops later, on the recognizer's end event). -/
theorem mute_and_device_gating
    (g : GlobalVoiceState) (w : RecRefState) (id : Nat) (d : String) :
    (g.muted = false → g.wantListening = true →
      (mutedTruePass g true false w).1.wantListening = false ∧
      (mutedTruePass g true false w).1.listening = g.listening ∧
      (mutedTruePass g true false w).1.muted = true ∧
      (mutedTruePass g true false w).2.1 = w ∧
      (mutedTruePass g true false w).2.2 = []) ∧
    (g.muted = false → g.wantListening = true → g.permission ≠ .denied →
      g.deviceId = some d → w.recRef = some id →
      (deviceNullPass g true false w).1.wantListening = false ∧
      (deviceNullPass g true false w).1.listening = g.listening ∧
      (deviceNullPass g true false w).2.1.recRef = none ∧
      (deviceNullPass g true false w).2.2 = [.stopWait id]) := by
  constructor
  · intro hm hw
    simp [mutedTruePass, globalReduce, onWantListeningChange, hm, hw]
  · intro hm hw hp hd hr
    simp [deviceNullPass, globalReduce, onWantListeningChange, hm, hw, hp, hd, hr]

/-- Witness for the amended C3 theorem at a concrete listening state. -/
theorem mute_and_device_gating_witness :
    ((mutedTruePass gListening true false ⟨some 7, 8⟩).1.wantListening = false ∧
      (mutedTruePass gListening true false ⟨some 7, 8⟩).1.listening = gListening.listening ∧
      (mutedTruePass gListening true false ⟨some 7, 8⟩).1.muted = true ∧
      (mutedTruePass gListening true false ⟨some 7, 8⟩).2.1 = ⟨some 7, 8⟩ ∧
      (mutedTruePass gListening true false ⟨some 7, 8⟩).2.2 = []) ∧
    ((deviceNullPass gListeningMic true false ⟨some 7, 8⟩).1.wantListening = false ∧
      (deviceNullPass gListeningMic true false ⟨some 7, 8⟩).1.listening
          = gListeningMic.listening ∧
      (deviceNullPass gListeningMic true false ⟨some 7, 8⟩).2.1.recRef = none ∧
      (deviceNullPass gListeningMic true false ⟨some 7, 8⟩).2.2 = [.stopWait 7]) :=
  ⟨(mute_and_device_gating gListening ⟨some 7, 8⟩ 7 "mic").1 rfl rfl,
   (mute_and_device_gating gListeningMic ⟨some 7, 8⟩ 7 "mic").2
      rfl rfl (by decide) rfl rfl⟩

/-- C1, evaluated at the failing interleaving: instance 0's `start()` throws
(transient code), its recovery parks at `await stopAndWait`; `wantListening`
toggles off (no-op, the reference is already null) and on again, starting
instance 1; when the recovery continuation resumes it constructs and starts
instance 2 and overwrites `recRef` without re-checking it — leaving both
instance 1 and instance 2 started at once, instance 1 unreferenced and never
stopped. -/
theorem recovery_race_two_running :
    (raceRun (fun n => n == 0)
        [.toggleOn, .toggleOff, .toggleOn, .resumeRecovery]).running = [1, 2] ∧
    (raceRun (fun n => n == 0)
        [.toggleOn, .toggleOff, .toggleOn, .resumeRecovery]).recRef = some 2 := by
  decide

/-- C7 counterexample: with session cursor 2 and a batch reporting start
index 0, the source processes from index 0 (yielding "abc"), not from
`max(cursor, index) = 2` (which would yield "c") as the claim states. -/
theorem extractTexts_ignores_cursor_when_index_present :
    (extractTexts [⟨true, ["a"]⟩, ⟨true, ["b"]⟩, ⟨true, ["c"]⟩] (some 0) 2).final
        = "abc" ∧
    (extractTextsClaimed [⟨true, ["a"]⟩, ⟨true, ["b"]⟩, ⟨true, ["c"]⟩] (some 0) 2).final
        = "c" ∧
    extractTexts [⟨true, ["a"]⟩, ⟨true, ["b"]⟩, ⟨true, ["c"]⟩] (some 0) 2
      ≠ extractTextsClaimed [⟨true, ["a"]⟩, ⟨true, ["b"]⟩, ⟨true, ["c"]⟩] (some 0) 2 := by
  decide

/-- C7 amended: the batch is processed from the reported start index when one
is present (even when it is below the session cursor), and otherwise from the
session cursor (first reset to 0 when the batch is shorter than the cursor);
from that index on, entries are classified interim/final, same-classification
first-alternative transcripts are concatenated in order, whitespace runs are
collapsed to single spaces with the ends trimmed, and the cursor advances to
the batch length. -/
theorem extractTexts_start_selection
    (results : List SRResultEntry) (resultIndex : Option Nat) (cursor : Nat) :
    extractTexts results resultIndex cursor =
      { interim := collapseWS (interimChunks (results.drop
            (resultIndex.getD (if results.length < cursor then 0 else cursor))))
      , final := collapseWS (finalChunks (results.drop
            (resultIndex.getD (if results.length < cursor then 0 else cursor))))
      , cursor := results.length } := by
  simp [extractTexts, extractLoop_eq, string_empty_append]

/-- C9: a batch whose normalized interim (resp. final) text equals the last
forwarded text of that classification produces no store dispatch and no
telemetry emission of that classification; a text is forwarded exactly when
it is non-empty and differs from the last forwarded value of its
classification. -/
theorem onSRResult_deduplicates
    (r : RecLocal) (results : List SRResultEntry) (ri : Option Nat) :
    ((extractTexts results ri r.cursor).interim = r.lastInterim →
      (∀ t, GlobalVoiceAction.evtPartial t ∉ (onSRResult r results ri).actions) ∧
      "webspeech:session-partial" ∉ (onSRResult r results ri).emits) ∧
    ((extractTexts results ri r.cursor).final = r.lastFinal →
      (∀ t, GlobalVoiceAction.evtFinal t ∉ (onSRResult r results ri).actions) ∧
      "webspeech:session-final" ∉ (onSRResult r results ri).emits) ∧
    (GlobalVoiceAction.evtPartial (extractTexts results ri r.cursor).interim
        ∈ (onSRResult r results ri).actions ↔
      ((extractTexts results ri r.cursor).interim ≠ "" ∧
       (extractTexts results ri r.cursor).interim ≠ r.lastInterim)) ∧
    (GlobalVoiceAction.evtFinal (extractTexts results ri r.cursor).final
        ∈ (onSRResult r results ri).actions ↔
      ((extractTexts results ri r.cursor).final ≠ "" ∧
       (extractTexts results ri r.cursor).final ≠ r.lastFinal)) := by
  simp only [onSRResult]
  cases hI : ((extractTexts results ri r.cursor).interim != ""
      && (extractTexts results ri r.cursor).interim != r.lastInterim) <;>
    cases hF : ((extractTexts results ri r.cursor).final != ""
        && (extractTexts results ri r.cursor).final != r.lastFinal) <;>
      simp_all <;> tauto

/-- Witness for the C9 theorem: a repeated interim fragment "hello" produces
no partial dispatch and no partial telemetry. -/
theorem onSRResult_deduplicates_witness :
    (∀ t, GlobalVoiceAction.evtPartial t
        ∉ (onSRResult ⟨0, "hello", "done"⟩ [⟨false, ["hello"]⟩] (some 0)).actions) ∧
    "webspeech:session-partial"
        ∉ (onSRResult ⟨0, "hello", "done"⟩ [⟨false, ["hello"]⟩] (some 0)).emits :=
  (onSRResult_deduplicates ⟨0, "hello", "done"⟩ [⟨false, ["hello"]⟩] (some 0)).1 (by decide)

theorem cfgFold_spec (changes : List CfgChange) (t : CfgTickState) :
    (changes.foldl (fun t c => onCfgChange false { t with g := applyCfgChange t.g c }) t).g
        = changes.foldl applyCfgChange t.g ∧
    (changes.foldl (fun t c => onCfgChange false { t with g := applyCfgChange t.g c }) t).cfgScheduled
        = (t.cfgScheduled || !changes.isEmpty) ∧
    (changes.foldl (fun t c => onCfgChange false { t with g := applyCfgChange t.g c }) t).flushes
        = t.flushes + (if t.cfgScheduled || changes.isEmpty then 0 else 1) := by
  induction changes generalizing t with
  | nil => simp
  | cons c cs ih =>
    simp only [List.foldl_cons, List.isEmpty_cons]
    cases ht : t.cfgScheduled
    · rw [show onCfgChange false
            { g := applyCfgChange t.g c, cfgScheduled := false, flushes := t.flushes }
          = { g := applyCfgChange t.g c, cfgScheduled := true, flushes := t.flushes + 1 }
          from rfl]
      simpa using ih ⟨applyCfgChange t.g c, true, t.flushes + 1⟩
    · rw [show onCfgChange false
            { g := applyCfgChange t.g c, cfgScheduled := true, flushes := t.flushes }
          = { g := applyCfgChange t.g c, cfgScheduled := true, flushes := t.flushes }
          from rfl]
      simpa using ih ⟨applyCfgChange t.g c, true, t.flushes⟩

theorem cfgFold_listening (changes : List CfgChange) (g : GlobalVoiceState) :
    (changes.foldl applyCfgChange g).listening = g.listening := by
  induction changes generalizing g with
  | nil => rfl
  | cons c cs ih =>
    rw [List.foldl_cons, ih]
    cases c <;> rfl

/-- C8: a batch of configuration-key changes within one tick queues exactly
one coalesced reconciliation microtask, and (while listening) that single
flush dispatches exactly one stop request followed by one start request
carrying the batch's final configuration values. -/
theorem cfg_changes_coalesce_to_single_cycle
    (g0 : GlobalVoiceState) (changes : List CfgChange)
    (hne : changes ≠ []) (hl : g0.listening = true) :
    (runCfgTick g0 changes false).1.flushes = 1 ∧
    (runCfgTick g0 changes false).2
      = [GlobalVoiceAction.reqStop,
         GlobalVoiceAction.reqStart
           (some (changes.foldl applyCfgChange g0).lang)
           (some (changes.foldl applyCfgChange g0).interim)
           (some (changes.foldl applyCfgChange g0).continuous)] := by
  have hfold := cfgFold_spec changes ⟨g0, false, 0⟩
  have hemp : changes.isEmpty = false := by
    cases changes with
    | nil => exact absurd rfl hne
    | cons c cs => rfl
  have hs := hfold.2.1
  have hf := hfold.2.2
  have hg := hfold.1
  rw [hemp] at hs hf
  simp only [Bool.or_false, Bool.not_false, Bool.false_or] at hs hf
  simp only [runCfgTick, hs, hf, hg, Bool.not_false, Bool.and_true, if_true]
  rw [cfgFold_listening changes g0, hl]
  simp

/-- Witness for the C8 theorem: two key changes in one tick (language and
continuous flag) while listening queue one flush and dispatch one stop plus
one start carrying both final values. -/
theorem cfg_changes_coalesce_witness :
    (runCfgTick { globalDefaults with listening := true }
        [CfgChange.setLang "fr", CfgChange.setContinuous true] false).1.flushes = 1 ∧
    (runCfgTick { globalDefaults with listening := true }
        [CfgChange.setLang "fr", CfgChange.setContinuous true] false).2
      = [GlobalVoiceAction.reqStop,
         GlobalVoiceAction.reqStart (some "fr") (some false) (some true)] := by
  have h := cfg_changes_coalesce_to_single_cycle { globalDefaults with listening := true }
      [CfgChange.setLang "fr", CfgChange.setContinuous true] (by decide) rfl
  exact ⟨h.1, h.2.trans (by decide)⟩

theorem getTok_setTok (m : List (Nat × Nat)) (t v t' : Nat) :
    getTok (setTok m t v) t' = if t' = t then v else getTok m t' := by
  induction m with
  | nil =>
    by_cases h : t' = t
    · subst h; simp [setTok, getTok]
    · simp [setTok, getTok, beq_iff_eq, h, Ne.symm h]
  | cons p ps ih =>
    simp only [setTok]
    by_cases hp : (p.1 == t) = true
    · rw [if_pos hp]
      have hp' : p.1 = t := by simpa using hp
      by_cases h : t' = t
      · subst h; simp [getTok]
      · simp [getTok, beq_iff_eq, h, Ne.symm h, hp']
    · rw [if_neg hp]
      have hp' : ¬ p.1 = t := by simpa using hp
      simp only [getTok]
      by_cases hq : (p.1 == t') = true
      · have hq' : p.1 = t' := by simpa using hq
        have hne : ¬ t' = t := hq' ▸ hp'
        simp [hq, hne]
      · simp [hq, ih]

theorem finishCall_target (L : Nat) (c : WaitCall) (r : StopReason) :
    (finishCall L c r).target = c.target := by
  unfold finishCall
  by_cases ht : (L != c.token) = true <;> by_cases hs : c.settled <;> simp [ht, hs]

theorem callOK_mono (L L' : Nat) (hLL : L ≤ L') (c : WaitCall)
    (h : callOK L c = true) : callOK L' c = true := by
  simp only [callOK, decide_eq_true_eq] at h ⊢
  exact ⟨h.1.trans hLL, h.2⟩

theorem callOK_clearEnd (L : Nat) (c : WaitCall) (h : callOK L c = true) :
    callOK L { c with endAttached := false } = true := by
  simp only [callOK, decide_eq_true_eq] at h ⊢
  refine ⟨h.1, h.2.1, h.2.2.1, fun hs => ⟨trivial, (h.2.2.2 hs).2.1, (h.2.2.2 hs).2.2⟩⟩

theorem callOK_clearErr (L : Nat) (c : WaitCall) (h : callOK L c = true) :
    callOK L { c with errAttached := false } = true := by
  simp only [callOK, decide_eq_true_eq] at h ⊢
  refine ⟨h.1, h.2.1, h.2.2.1, fun hs => ⟨(h.2.2.2 hs).1, trivial, (h.2.2.2 hs).2.2⟩⟩

theorem callOK_clearTimer (L : Nat) (c : WaitCall) (h : callOK L c = true) :
    callOK L { c with timerActive := false } = true := by
  simp only [callOK, decide_eq_true_eq] at h ⊢
  refine ⟨h.1, h.2.1, h.2.2.1, fun hs => ⟨(h.2.2.2 hs).1, (h.2.2.2 hs).2.1, trivial⟩⟩

theorem callOK_settled_false (L : Nat) (c : WaitCall) (h : callOK L c = true)
    (hs : c.settled = false) : c.resolved = [] := by
  simp only [callOK, decide_eq_true_eq] at h
  have h3 := h.2.2.1
  rw [hs] at h3
  cases hcr : c.resolved with
  | nil => rfl
  | cons a as => rw [hcr] at h3; simp at h3

theorem callOK_finishCall (L : Nat) (c : WaitCall) (reason : StopReason)
    (h : callOK L c = true) (hs : c.settled = false) :
    callOK L (finishCall L c reason) = true := by
  unfold finishCall
  by_cases ht : (L != c.token) = true
  · rw [if_pos ht]; exact h
  · have hbt : (L != c.token) = false := by simpa using ht
    have hL : L = c.token := by simpa using hbt
    have hres : c.resolved = [] := callOK_settled_false L c h hs
    rw [if_neg ht, hs]
    simp only [callOK, decide_eq_true_eq, Bool.false_eq_true, if_false]
    simp [hres, hL]

theorem wfWait_step (s : WaitState) (op : WaitOp) (h : wfWait s = true) :
    wfWait (waitStep s op) = true := by
  cases op with
  | newCall t =>
    unfold wfWait at h ⊢
    rw [List.all_eq_true] at h ⊢
    simp only [waitStep]
    intro c hc
    rw [List.mem_append] at hc
    cases hc with
    | inl hmem =>
      have hOK := h c hmem
      refine callOK_mono _ _ ?_ c hOK
      rw [getTok_setTok]
      by_cases hct : c.target = t
      · rw [if_pos hct, hct]; exact Nat.le_succ _
      · rw [if_neg hct]
    | inr hmem =>
      rw [List.mem_singleton] at hmem
      subst hmem
      simp [callOK, getTok_setTok]
  | fireEnd t =>
    unfold wfWait at h ⊢
    rw [List.all_eq_true] at h ⊢
    simp only [waitStep]
    intro x hx
    rw [List.mem_map] at hx
    obtain ⟨c, hc, rfl⟩ := hx
    have hOK := h c hc
    by_cases hcond : (c.target == t && c.endAttached) = true
    · rw [if_pos hcond]
      obtain ⟨hct, hEA⟩ : c.target = t ∧ c.endAttached = true := by simpa using hcond
      have hs : c.settled = false := by
        by_contra hss
        have hstrue : c.settled = true := by simpa using hss
        simp only [callOK, decide_eq_true_eq] at hOK
        exact absurd hEA (by simp [(hOK.2.2.2 hstrue).1])
      simp only [finishCall_target]
      exact callOK_finishCall _ _ _ (callOK_clearEnd _ _ hOK) (by simpa using hs)
    · rw [if_neg hcond]; exact hOK
  | fireError t =>
    unfold wfWait at h ⊢
    rw [List.all_eq_true] at h ⊢
    simp only [waitStep]
    intro x hx
    rw [List.mem_map] at hx
    obtain ⟨c, hc, rfl⟩ := hx
    have hOK := h c hc
    by_cases hcond : (c.target == t && c.errAttached) = true
    · rw [if_pos hcond]
      obtain ⟨hct, hEA⟩ : c.target = t ∧ c.errAttached = true := by simpa using hcond
      have hs : c.settled = false := by
        by_contra hss
        have hstrue : c.settled = true := by simpa using hss
        simp only [callOK, decide_eq_true_eq] at hOK
        exact absurd hEA (by simp [(hOK.2.2.2 hstrue).2.1])
      simp only [finishCall_target]
      exact callOK_finishCall _ _ _ (callOK_clearErr _ _ hOK) (by simpa using hs)
    · rw [if_neg hcond]; exact hOK
  | fireTimeout i =>
    simp only [waitStep]
    cases hm : s.calls[i]? with
    | none => exact h
    | some c =>
      dsimp only
      by_cases hta : c.timerActive
      · rw [if_pos hta]
        unfold wfWait at h ⊢
        rw [List.all_eq_true] at h ⊢
        intro x hx
        dsimp only at hx ⊢
        rcases List.mem_or_eq_of_mem_set hx with hmem | rfl
        · exact h x hmem
        · have hcmem : c ∈ s.calls := List.getElem?_mem hm
          have hOK := h c hcmem
          have hs : c.settled = false := by
            by_contra hss
            have hstrue : c.settled = true := by simpa using hss
            simp only [callOK, decide_eq_true_eq] at hOK
            exact absurd hta (by simp [(hOK.2.2.2 hstrue).2.2])
          simp only [finishCall_target]
          exact callOK_finishCall _ _ _ (callOK_clearTimer _ _ hOK) (by simpa using hs)
      · rw [if_neg hta]; exact h

theorem wfWait_foldl (ops : List WaitOp) (s : WaitState) (h : wfWait s = true) :
    wfWait (ops.foldl waitStep s) = true := by
  induction ops generalizing s with
  | nil => exact h
  | cons op ops ih => exact ih _ (wfWait_step s op h)

theorem waitStep_stale_immune (s : WaitState) (op : WaitOp) (i : Nat) (c : WaitCall)
    (hi : s.calls[i]? = some c)
    (hstale : c.token ≠ getTok s.stopTokens c.target) :
    ((waitStep s op).calls[i]?).map (fun x => (x.settled, x.resolved))
      = some (c.settled, c.resolved) := by
  have hlen : i < s.calls.length := by
    by_contra hge
    rw [List.getElem?_eq_none (Nat.le_of_not_lt hge)] at hi
    exact Option.noConfusion hi
  have hnm : (L : Nat) → L = getTok s.stopTokens c.target →
      (L != c.token) = true := by
    intro L hL
    subst hL
    simpa using fun hEq => hstale hEq.symm
  cases op with
  | newCall t =>
    simp only [waitStep]
    rw [List.getElem?_append]
    simp [hlen, hi]
  | fireEnd t =>
    simp only [waitStep]
    rw [List.getElem?_map, hi]
    simp only [Option.map_some']
    split
    · unfold finishCall
      rw [if_pos (hnm _ rfl)]
    · rfl
  | fireError t =>
    simp only [waitStep]
    rw [List.getElem?_map, hi]
    simp only [Option.map_some']
    split
    · unfold finishCall
      rw [if_pos (hnm _ rfl)]
    · rfl
  | fireTimeout j =>
    simp only [waitStep]
    cases hm : s.calls[j]? with
    | none => simp [hi]
    | some cj =>
      dsimp only
      by_cases hta : cj.timerActive
      · rw [if_pos hta]
        by_cases hij : j = i
        · subst hij
          have hcc : cj = c := by rw [hm] at hi; exact Option.some.inj hi
          subst hcc
          rw [show (s.calls.set j (finishCall (getTok s.stopTokens cj.target)
              { cj with timerActive := false } .timedOut))[j]?
            = some (finishCall (getTok s.stopTokens cj.target)
              { cj with timerActive := false } .timedOut) from by
            simp [List.getElem?_set, hlen]]
          unfold finishCall
          rw [if_pos (hnm _ rfl)]
          rfl
        · rw [show (s.calls.set j (finishCall (getTok s.stopTokens cj.target)
              { cj with timerActive := false } .timedOut))[i]? = s.calls[i]? from by
            simp [List.getElem?_set, hij]]
          simp [hi]
      · rw [if_neg hta]
        simp [hi]

theorem waitStep_newCall_bumps (s : WaitState) (t : Nat) :
    getTok (waitStep s (.newCall t)).stopTokens t = getTok s.stopTokens t + 1 := by
  simp [waitStep, getTok_setTok]

/-- C2: (a) every `stopAndWaitGeneric` call increments its target's
generation token; (b) every reachable coordinator state is well-formed — in
particular each call's promise is resolved at most once and a settled call
has all its event sources detached; (c) a terminal-event, error-event or
timeout firing against a call whose captured token is no longer the latest
for its target changes neither that call's `settled` flag nor its
resolutions: superseded waits are silently invalidated. -/
theorem stopAndWait_generation_discipline :
    (∀ (s : WaitState) (t : Nat),
      getTok (waitStep s (.newCall t)).stopTokens t = getTok s.stopTokens t + 1) ∧
    (∀ ops : List WaitOp, wfWait (waitRun ops) = true) ∧
    (∀ (ops : List WaitOp) (i : Nat) (c : WaitCall),
      (waitRun ops).calls[i]? = some c → c.resolved.length ≤ 1) ∧
    (∀ (ops : List WaitOp) (op : WaitOp) (i : Nat) (c : WaitCall),
      (waitRun ops).calls[i]? = some c →
      c.token ≠ getTok (waitRun ops).stopTokens c.target →
      ((waitStep (waitRun ops) op).calls[i]?).map (fun x => (x.settled, x.resolved))
        = some (c.settled, c.resolved)) := by
  have hwf : ∀ ops : List WaitOp, wfWait (waitRun ops) = true :=
    fun ops => wfWait_foldl ops ⟨[], []⟩ rfl
  refine ⟨waitStep_newCall_bumps, hwf, ?_, ?_⟩
  · intro ops i c hi
    have hmem : c ∈ (waitRun ops).calls := List.getElem?_mem hi
    have h := hwf ops
    unfold wfWait at h
    rw [List.all_eq_true] at h
    have := h c hmem
    simp only [callOK, decide_eq_true_eq] at this
    exact this.2.1
  · intro ops op i c hi hstale
    exact waitStep_stale_immune (waitRun ops) op i c hi hstale

/-- Witness for the C2 theorem: after two calls against target 0, the first
call's token (1) is stale against the latest token (2); the target's `end`
event leaves the first call unsettled and unresolved, and its resolution
count is 0 ≤ 1. -/
theorem stopAndWait_generation_discipline_witness :
    getTok (waitStep (⟨[], []⟩ : WaitState) (.newCall 3)).stopTokens 3
        = getTok (⟨[], []⟩ : WaitState).stopTokens 3 + 1 ∧
    (⟨0, 1, true, true, true, false, []⟩ : WaitCall).resolved.length ≤ 1 ∧
    ((waitStep (waitRun [.newCall 0, .newCall 0]) (.fireEnd 0)).calls[0]?).map
        (fun x => (x.settled, x.resolved)) = some (false, []) :=
  ⟨stopAndWait_generation_discipline.1 ⟨[], []⟩ 3,
   stopAndWait_generation_discipline.2.2.1 [.newCall 0, .newCall 0] 0
     ⟨0, 1, true, true, true, false, []⟩ (by decide),
   stopAndWait_generation_discipline.2.2.2 [.newCall 0, .newCall 0] (.fireEnd 0) 0
     ⟨0, 1, true, true, true, false, []⟩ (by decide) (by decide)⟩

end Voice
